import Mathlib

/-!
Switch_LED: four buttons on one ADC pin.

A shallow embedding of `Switch_LED/main/Switch_LED.c`: the static threshold
table, the classifier `get_pressed_button`, the actuator `control_leds`, the
polling loop of `button_monitor_task`, the sampler `read_voltage_mv` and the
startup path `init_adc` / `app_main`, followed by the properties proved about
them.

Conventions: `uint32_t` voltages are natural numbers (the classifier only
compares them, so no arithmetic can wrap); `gpio_num_t` is an integer so that
`GPIO_NUM_NC = -1` is representable; `for` loops over the table become
structural recursions over the list of its entries, in table order.
-/

namespace SwitchLED

/-! ## Data model -/

/-- The enum `button_id_t` (source lines 23-29). -/
inductive button_id_t where
  | BTN_NONE
  | BTN_UP
  | BTN_DOWN
  | BTN_LEFT
  | BTN_RIGHT
  deriving DecidableEq, Repr

open button_id_t

/-- GPIO pin numbers (`gpio_num_t` of the ESP-IDF headers). -/
abbrev gpio_num_t := Int

/-- The "not connected" pin of the ESP-IDF headers. -/
def GPIO_NUM_NC : gpio_num_t := -1

def GPIO_NUM_19 : gpio_num_t := 19
def GPIO_NUM_21 : gpio_num_t := 21
def GPIO_NUM_22 : gpio_num_t := 22
def GPIO_NUM_23 : gpio_num_t := 23

/-- LED1 - UP. -/
def LED1_PIN : gpio_num_t := GPIO_NUM_19
/-- LED2 - DOWN. -/
def LED2_PIN : gpio_num_t := GPIO_NUM_21
/-- LED3 - LEFT. -/
def LED3_PIN : gpio_num_t := GPIO_NUM_22
/-- LED4 - RIGHT. -/
def LED4_PIN : gpio_num_t := GPIO_NUM_23

/-- The struct `button_threshold_t` (source lines 32-38). -/
structure button_threshold_t where
  id : button_id_t
  min_voltage : Nat
  max_voltage : Nat
  name : String
  led_pin : gpio_num_t
  deriving DecidableEq, Repr

/-- The static table `button_thresholds` (source lines 40-46). -/
def button_thresholds : List button_threshold_t :=
  [ { id := BTN_NONE,  min_voltage := 0,    max_voltage := 400,  name := "NONE",  led_pin := GPIO_NUM_NC },
    { id := BTN_UP,    min_voltage := 400,  max_voltage := 800,  name := "UP",    led_pin := LED1_PIN },
    { id := BTN_DOWN,  min_voltage := 800,  max_voltage := 1200, name := "DOWN",  led_pin := LED2_PIN },
    { id := BTN_LEFT,  min_voltage := 1200, max_voltage := 1600, name := "LEFT",  led_pin := LED3_PIN },
    { id := BTN_RIGHT, min_voltage := 1600, max_voltage := 3300, name := "RIGHT", led_pin := LED4_PIN } ]

/-- The constant `NUM_BUTTONS`: the number of entries of the table. -/
def NUM_BUTTONS : Nat := button_thresholds.length

/-! ## Classifier -/

/-- The loop of `get_pressed_button` (source lines 76-81) over the entries that
are still to be scanned: the first entry with
`voltage_mv >= min_voltage && voltage_mv < max_voltage` decides, and running
off the end of the table gives `BTN_NONE` (line 82). -/
def get_pressed_button_scan (voltage_mv : Nat) : List button_threshold_t → button_id_t
  | [] => BTN_NONE
  | e :: rest =>
    if voltage_mv ≥ e.min_voltage ∧ voltage_mv < e.max_voltage then e.id
    else get_pressed_button_scan voltage_mv rest

/-- The function `get_pressed_button` (source lines 74-83). -/
def get_pressed_button (voltage_mv : Nat) : button_id_t :=
  get_pressed_button_scan voltage_mv button_thresholds

/-- The half-open interval test `[min_voltage, max_voltage)` of one entry, as
the specification words it. -/
def in_interval (e : button_threshold_t) (v : Nat) : Prop :=
  e.min_voltage ≤ v ∧ v < e.max_voltage

instance (e : button_threshold_t) (v : Nat) : Decidable (in_interval e v) := by
  unfold in_interval; infer_instance

/-- The classification as the specification words it: the identity of the first
entry, in table order, whose interval contains the voltage, and `BTN_NONE` when
there is none. -/
def first_match_id (table : List button_threshold_t) (v : Nat) : button_id_t :=
  match table.find? (fun e => decide (in_interval e v)) with
  | some e => e.id
  | none => BTN_NONE

/-! ## Actuator -/

/-- Levels driven on the GPIO outputs, pin by pin (`true` is active). -/
abbrev gpio_state := gpio_num_t → Bool

/-- The driver call `gpio_set_level(gpio_num, level)` of the output-indicator
collaborator: the named output is driven high for a non-zero level and low for
zero, and every other output keeps its level. -/
def gpio_set_level (s : gpio_state) (gpio_num : gpio_num_t) (level : Nat) : gpio_state :=
  fun p => if p = gpio_num then decide (level ≠ 0) else s p

/-- One `gpio_set_level` call: the pin written and the level written to it. -/
structure gpio_write where
  pin : gpio_num_t
  level : Nat
  deriving DecidableEq, Repr

/-- The four unconditional writes that open `control_leds` (source lines 88-91). -/
def control_leds_clear : List gpio_write :=
  [ { pin := LED1_PIN, level := 0 },
    { pin := LED2_PIN, level := 0 },
    { pin := LED3_PIN, level := 0 },
    { pin := LED4_PIN, level := 0 } ]

/-- The loop of `control_leds` (source lines 94-100) over the entries still to
be scanned: the first entry with `id == pressed_button && led_pin != GPIO_NUM_NC`
gets its pin written to 1 and the loop breaks. -/
def control_leds_scan (pressed_button : button_id_t) : List button_threshold_t → List gpio_write
  | [] => []
  | e :: rest =>
    if e.id = pressed_button ∧ e.led_pin ≠ GPIO_NUM_NC then [{ pin := e.led_pin, level := 1 }]
    else control_leds_scan pressed_button rest

/-- Every `gpio_set_level` call `control_leds` issues, in program order. -/
def control_leds_writes (pressed_button : button_id_t) : List gpio_write :=
  control_leds_clear ++ control_leds_scan pressed_button button_thresholds

/-- Performs a sequence of `gpio_set_level` calls, first to last. -/
def apply_writes (s : gpio_state) : List gpio_write → gpio_state
  | [] => s
  | w :: ws => apply_writes (gpio_set_level s w.pin w.level) ws

/-- The function `control_leds` (source lines 85-101) as a transformer of the
GPIO output levels. -/
def control_leds (s : gpio_state) (pressed_button : button_id_t) : gpio_state :=
  apply_writes s (control_leds_writes pressed_button)

/-- The four LED pins, LED1 to LED4. -/
def led_pins : List gpio_num_t := [LED1_PIN, LED2_PIN, LED3_PIN, LED4_PIN]

/-- The LED pins that are active in a state, in the order LED1 to LED4. -/
def active_leds (s : gpio_state) : List gpio_num_t :=
  led_pins.filter (fun p => s p)

/-- The levels of the four LEDs in a state, in the order LED1 to LED4. -/
def led_levels (s : gpio_state) : List Bool :=
  led_pins.map s

/-- The LED pin bound to an identity in `button_thresholds`: the `led_pin` of
the first entry carrying that identity. -/
def bound_led (b : button_id_t) : Option gpio_num_t :=
  (button_thresholds.find? (fun e => decide (e.id = b))).map (fun e => e.led_pin)

/-! ## Monitor loop -/

/-- The variables of `button_monitor_task` that live across iterations, with
the GPIO output levels the task acts on. `current_button` is overwritten at the
start of every iteration and so carries nothing from one to the next. -/
structure monitor_state where
  last_button : button_id_t
  gpio : gpio_state

/-- What one iteration does that is visible outside it. -/
inductive monitor_event where
  | log_voltage (voltage : Nat)
  | log_button (button_name : String)
  | control_leds_call (pressed_button : button_id_t)
  deriving DecidableEq, Repr

/-- The name lookup of `button_monitor_task` (source lines 119-125) over the
entries still to be scanned, `"UNKNOWN"` being the initial value. -/
def button_name_scan (current_button : button_id_t) : List button_threshold_t → String
  | [] => "UNKNOWN"
  | e :: rest =>
    if e.id = current_button then e.name else button_name_scan current_button rest

/-- One pass through the body of the `while(1)` loop of `button_monitor_task`
(source lines 112-132) on the voltage `read_voltage_mv` returned. -/
def monitor_iteration (st : monitor_state) (voltage : Nat) : monitor_state × List monitor_event :=
  let current_button := get_pressed_button voltage
  if current_button ≠ st.last_button then
    ({ last_button := current_button, gpio := control_leds st.gpio current_button },
     [ monitor_event.log_voltage voltage,
       monitor_event.log_button (button_name_scan current_button button_thresholds),
       monitor_event.control_leds_call current_button ])
  else
    (st, [])

/-- The state in which `button_monitor_task` enters its loop (source lines
105-106): `last_button = BTN_NONE`. -/
def button_monitor_task_start (gpio : gpio_state) : monitor_state :=
  { last_button := BTN_NONE, gpio := gpio }

/-- Successive iterations of the loop, one per sampled voltage: the state
reached and the events of each iteration, in order. -/
def button_monitor_task_run (st : monitor_state) : List Nat → monitor_state × List (List monitor_event)
  | [] => (st, [])
  | v :: vs =>
    let r := monitor_iteration st v
    let rr := button_monitor_task_run r.1 vs
    (rr.1, r.2 :: rr.2)

/-- The `control_leds` invocation among the events of one iteration, if any,
with its argument. -/
def control_leds_call_of : List monitor_event → Option button_id_t
  | [] => none
  | monitor_event.control_leds_call b :: _ => some b
  | _ :: rest => control_leds_call_of rest

/-- The GPIO side of `app_main` (source lines 150-153): after the pins are
configured as outputs, `control_leds(BTN_NONE)`. -/
def app_main_gpio (s0 : gpio_state) : gpio_state :=
  control_leds s0 BTN_NONE

/-- The system from power-up: `app_main`, then the task it creates, fed the
sampled voltages. `s0` is the level of every output before `app_main` runs. -/
def system_run (s0 : gpio_state) (voltages : List Nat) : monitor_state × List (List monitor_event) :=
  button_monitor_task_run (button_monitor_task_start (app_main_gpio s0)) voltages

/-- For each iteration of a run of the loop from `st`, the `control_leds`
invocation it made, if any. -/
def monitor_calls (st : monitor_state) (voltages : List Nat) : List (Option button_id_t) :=
  (button_monitor_task_run st voltages).2.map control_leds_call_of

/-! ## Write-by-write view of the actuator -/

/-- The GPIO levels after each `gpio_set_level` call of a sequence, one state
per call, first to last. -/
def write_states (s : gpio_state) : List gpio_write → List gpio_state
  | [] => []
  | w :: ws =>
    gpio_set_level s w.pin w.level :: write_states (gpio_set_level s w.pin w.level) ws

/-- Every GPIO state passed through, write by write, while `control_leds` is
called with each identity of a sequence in turn. -/
def control_leds_seq_states (s : gpio_state) : List button_id_t → List gpio_state
  | [] => []
  | b :: bs =>
    write_states s (control_leds_writes b) ++ control_leds_seq_states (control_leds s b) bs

/-- The GPIO state after `control_leds` has been called with each identity of a
sequence in turn. -/
def control_leds_seq (s : gpio_state) : List button_id_t → gpio_state
  | [] => s
  | b :: bs => control_leds_seq (control_leds s b) bs

/-! ## Sampler -/

/-- The constant `ADC_SAMPLES`. -/
def ADC_SAMPLES : Nat := 32

/-- The accumulator `adc_reading` of `read_voltage_mv` after the first `i`
passes of its loop (source lines 64-68). `adc1_get_raw i` is the `int` the
`i`-th call of the driver returns; `+=` converts it to `uint32_t` and adds
modulo `2^32`. -/
def read_voltage_mv_acc (adc1_get_raw : Nat → Int) : Nat → Nat
  | 0 => 0
  | i + 1 => (((read_voltage_mv_acc adc1_get_raw i : Nat) : Int) + adc1_get_raw i) % 2 ^ 32 |>.toNat

/-- The value of `adc_reading` after `adc_reading /= ADC_SAMPLES` (source line
69): the raw code handed to the conversion. -/
def read_voltage_mv_code (adc1_get_raw : Nat → Int) : Nat :=
  read_voltage_mv_acc adc1_get_raw ADC_SAMPLES / ADC_SAMPLES

/-- The function `read_voltage_mv` (source lines 62-72). The conversion
`esp_adc_cal_raw_to_voltage` of the calibration collaborator is a parameter, as
is the global `adc_chars` it is given (`none` is the null pointer). -/
def read_voltage_mv {P : Type} (esp_adc_cal_raw_to_voltage : Nat → Option P → Nat)
    (adc_chars : Option P) (adc1_get_raw : Nat → Int) : Nat :=
  esp_adc_cal_raw_to_voltage (read_voltage_mv_code adc1_get_raw) adc_chars

/-! ## Startup -/

/-- The calls `app_main` and `init_adc` make to other functions, `P` being the
type of a calibration profile. -/
inductive startup_call (P : Type) where
  | adc1_config_width
  | adc1_config_channel_atten
  | calloc
  | esp_adc_cal_characterize (chars : Option P)
  | esp_logi
  | gpio_config
  | control_leds_call (pressed_button : button_id_t)
  | xTaskCreate_button_monitor
  deriving DecidableEq, Repr

/-- What a run of `init_adc` or `app_main` amounts to: the calls made, in
program order, the global `adc_chars` as it was left (`none` is the null
pointer), and whether the function ran to its end. -/
structure startup_result (P : Type) where
  calls : List (startup_call P)
  adc_chars : Option P
  completed : Bool

/-- The function `init_adc` (source lines 50-60). `calloc_result` is what the
allocation yields, `none` when it fails; it is stored in `adc_chars` and handed
to `esp_adc_cal_characterize` with no test in between. The code of that callee
is not part of the program, so whether it returns when handed a given pointer
is the parameter `characterize_returns`. -/
def init_adc {P : Type} (calloc_result : Option P) (characterize_returns : Option P → Bool) :
    startup_result P :=
  let adc_chars := calloc_result
  let calls := [ startup_call.adc1_config_width,
                 startup_call.adc1_config_channel_atten,
                 startup_call.calloc,
                 startup_call.esp_adc_cal_characterize adc_chars ]
  if characterize_returns adc_chars then
    { calls := calls ++ [startup_call.esp_logi], adc_chars := adc_chars, completed := true }
  else
    { calls := calls, adc_chars := adc_chars, completed := false }

/-- The function `app_main` (source lines 136-168): `init_adc`, the GPIO
configuration, `control_leds(BTN_NONE)`, the startup summary (three lines and
one per table entry), and the creation of `button_monitor_task`. Nothing in it
reads `adc_chars` or any return value. -/
def app_main {P : Type} (calloc_result : Option P) (characterize_returns : Option P → Bool) :
    startup_result P :=
  let r := init_adc calloc_result characterize_returns
  if r.completed then
    { calls := r.calls ++
        [ startup_call.gpio_config,
          startup_call.control_leds_call BTN_NONE,
          startup_call.esp_logi,
          startup_call.esp_logi,
          startup_call.esp_logi ] ++
        button_thresholds.map (fun _ => startup_call.esp_logi) ++
        [ startup_call.xTaskCreate_button_monitor ],
      adc_chars := r.adc_chars,
      completed := true }
  else
    r

/-- Whether `app_main` got as far as creating `button_monitor_task`. -/
def task_started {P : Type} [DecidableEq P] (r : startup_result P) : Bool :=
  decide (startup_call.xTaskCreate_button_monitor ∈ r.calls)

/-! ## The classifier on the five ranges of the table -/

theorem get_pressed_button_lt_400 (v : Nat) (h : v < 400) :
    get_pressed_button v = BTN_NONE := by
  simp [get_pressed_button, get_pressed_button_scan, button_thresholds, h]

theorem get_pressed_button_400_800 (v : Nat) (h1 : 400 ≤ v) (h2 : v < 800) :
    get_pressed_button v = BTN_UP := by
  have : ¬ v < 400 := by omega
  simp [get_pressed_button, get_pressed_button_scan, button_thresholds, *]

theorem get_pressed_button_800_1200 (v : Nat) (h1 : 800 ≤ v) (h2 : v < 1200) :
    get_pressed_button v = BTN_DOWN := by
  have : ¬ v < 400 := by omega
  have : ¬ v < 800 := by omega
  simp [get_pressed_button, get_pressed_button_scan, button_thresholds, *]

theorem get_pressed_button_1200_1600 (v : Nat) (h1 : 1200 ≤ v) (h2 : v < 1600) :
    get_pressed_button v = BTN_LEFT := by
  have : ¬ v < 400 := by omega
  have : ¬ v < 800 := by omega
  have : ¬ v < 1200 := by omega
  simp [get_pressed_button, get_pressed_button_scan, button_thresholds, *]

theorem get_pressed_button_1600_3300 (v : Nat) (h1 : 1600 ≤ v) (h2 : v < 3300) :
    get_pressed_button v = BTN_RIGHT := by
  have : ¬ v < 400 := by omega
  have : ¬ v < 800 := by omega
  have : ¬ v < 1200 := by omega
  have : ¬ v < 1600 := by omega
  simp [get_pressed_button, get_pressed_button_scan, button_thresholds, *]

theorem get_pressed_button_ge_3300 (v : Nat) (h : 3300 ≤ v) :
    get_pressed_button v = BTN_NONE := by
  have : ¬ v < 400 := by omega
  have : ¬ v < 800 := by omega
  have : ¬ v < 1200 := by omega
  have : ¬ v < 1600 := by omega
  have : ¬ v < 3300 := by omega
  simp [get_pressed_button, get_pressed_button_scan, button_thresholds, *]

/-- The range a voltage falls in, with the identity the classifier returns there. -/
theorem get_pressed_button_ranges (v : Nat) :
    (v < 400 ∧ get_pressed_button v = BTN_NONE) ∨
    (400 ≤ v ∧ v < 800 ∧ get_pressed_button v = BTN_UP) ∨
    (800 ≤ v ∧ v < 1200 ∧ get_pressed_button v = BTN_DOWN) ∨
    (1200 ≤ v ∧ v < 1600 ∧ get_pressed_button v = BTN_LEFT) ∨
    (1600 ≤ v ∧ v < 3300 ∧ get_pressed_button v = BTN_RIGHT) ∨
    (3300 ≤ v ∧ get_pressed_button v = BTN_NONE) := by
  by_cases a : v < 400
  · exact Or.inl ⟨a, get_pressed_button_lt_400 v a⟩
  by_cases b : v < 800
  · exact Or.inr (Or.inl ⟨by omega, b, get_pressed_button_400_800 v (by omega) b⟩)
  by_cases c : v < 1200
  · exact Or.inr (Or.inr (Or.inl ⟨by omega, c, get_pressed_button_800_1200 v (by omega) c⟩))
  by_cases d : v < 1600
  · exact Or.inr (Or.inr (Or.inr (Or.inl
      ⟨by omega, d, get_pressed_button_1200_1600 v (by omega) d⟩)))
  by_cases e : v < 3300
  · exact Or.inr (Or.inr (Or.inr (Or.inr (Or.inl
      ⟨by omega, e, get_pressed_button_1600_3300 v (by omega) e⟩))))
  · exact Or.inr (Or.inr (Or.inr (Or.inr (Or.inr
      ⟨by omega, get_pressed_button_ge_3300 v (by omega)⟩))))

/-! ## Classifier claims -/

/-- C1: for every voltage below 3300 mV the classifier returns an identity
carried by a table entry whose interval `[min_voltage, max_voltage)` contains
the voltage (and every entry carrying that identity contains it), and exactly
one entry of `button_thresholds` has an interval containing the voltage. -/
theorem get_pressed_button_total_unique (v : Nat) (hv : v < 3300) :
    (∃ e ∈ button_thresholds,
        e.id = get_pressed_button v ∧ e.min_voltage ≤ v ∧ v < e.max_voltage) ∧
    (∀ e ∈ button_thresholds,
        e.id = get_pressed_button v → e.min_voltage ≤ v ∧ v < e.max_voltage) ∧
    (∃! e, e ∈ button_thresholds ∧ e.min_voltage ≤ v ∧ v < e.max_voltage) ∧
    (button_thresholds.filter (fun e => decide (in_interval e v))).length = 1 := by
  have key : ∃ e, button_thresholds.filter (fun e => decide (in_interval e v)) = [e] ∧
        e.id = get_pressed_button v ∧ e.min_voltage ≤ v ∧ v < e.max_voltage := by
    rcases get_pressed_button_ranges v with h | h | h | h | h | h
    · have h1 := h.1
      have : ¬ 400 ≤ v := by omega
      have : ¬ 800 ≤ v := by omega
      have : ¬ 1200 ≤ v := by omega
      have : ¬ 1600 ≤ v := by omega
      simp [button_thresholds, in_interval, List.filter_cons, h.2, *]
    · obtain ⟨h1, h2, h3⟩ := h
      have : ¬ v < 400 := by omega
      have : ¬ 800 ≤ v := by omega
      have : ¬ 1200 ≤ v := by omega
      have : ¬ 1600 ≤ v := by omega
      simp [button_thresholds, in_interval, List.filter_cons, *]
    · obtain ⟨h1, h2, h3⟩ := h
      have : ¬ v < 400 := by omega
      have : ¬ v < 800 := by omega
      have : ¬ 1200 ≤ v := by omega
      have : ¬ 1600 ≤ v := by omega
      simp [button_thresholds, in_interval, List.filter_cons, *]
    · obtain ⟨h1, h2, h3⟩ := h
      have : ¬ v < 400 := by omega
      have : ¬ v < 800 := by omega
      have : ¬ v < 1200 := by omega
      have : ¬ 1600 ≤ v := by omega
      simp [button_thresholds, in_interval, List.filter_cons, *]
    · obtain ⟨h1, h2, h3⟩ := h
      have : ¬ v < 400 := by omega
      have : ¬ v < 800 := by omega
      have : ¬ v < 1200 := by omega
      have : ¬ v < 1600 := by omega
      simp [button_thresholds, in_interval, List.filter_cons, *]
    · omega
  obtain ⟨e, hf, hid, hlo, hhi⟩ := key
  have hmem : ∀ x, (x ∈ button_thresholds ∧ x.min_voltage ≤ v ∧ v < x.max_voltage) ↔ x = e := by
    intro x
    have hx : x ∈ button_thresholds.filter (fun e => decide (in_interval e v)) ↔ x ∈ [e] := by
      rw [hf]
    rw [List.mem_filter, List.mem_singleton] at hx
    simpa [in_interval] using hx
  have he : e ∈ button_thresholds ∧ e.min_voltage ≤ v ∧ v < e.max_voltage := (hmem e).2 rfl
  refine ⟨⟨e, he.1, hid, hlo, hhi⟩, ?_, ⟨e, he, fun y hy => (hmem y).1 hy⟩, by rw [hf]; rfl⟩
  intro x hx hxid
  rcases get_pressed_button_ranges v with h | h | h | h | h | h
  all_goals
    simp only [button_thresholds, List.mem_cons, List.mem_singleton, List.not_mem_nil,
      or_false] at hx
    rcases hx with rfl | rfl | rfl | rfl | rfl <;> simp_all <;> omega

/-- C1 at 1700 mV, inside the range of RIGHT. -/
theorem get_pressed_button_total_unique_witness :
    (1700 < 3300) ∧
    ((∃ e ∈ button_thresholds,
        e.id = get_pressed_button 1700 ∧ e.min_voltage ≤ 1700 ∧ 1700 < e.max_voltage) ∧
    (∀ e ∈ button_thresholds,
        e.id = get_pressed_button 1700 → e.min_voltage ≤ 1700 ∧ 1700 < e.max_voltage) ∧
    (∃! e, e ∈ button_thresholds ∧ e.min_voltage ≤ 1700 ∧ 1700 < e.max_voltage) ∧
    (button_thresholds.filter (fun e => decide (in_interval e 1700))).length = 1) :=
  ⟨by decide, get_pressed_button_total_unique 1700 (by decide)⟩

/-- The scan of any table returns the identity of the first entry containing
the voltage, and `BTN_NONE` when no entry contains it. -/
theorem get_pressed_button_scan_first (table : List button_threshold_t) (v : Nat) :
    (∃ before e after, table = before ++ e :: after ∧
        (∀ x ∈ before, ¬ in_interval x v) ∧ in_interval e v ∧
        get_pressed_button_scan v table = e.id) ∨
    ((∀ x ∈ table, ¬ in_interval x v) ∧ get_pressed_button_scan v table = BTN_NONE) := by
  induction table with
  | nil => right; simp [get_pressed_button_scan]
  | cons a rest ih =>
    by_cases ha : in_interval a v
    · left
      refine ⟨[], a, rest, rfl, by simp, ha, ?_⟩
      have ha2 : v ≥ a.min_voltage ∧ v < a.max_voltage := ha
      simp [get_pressed_button_scan, ha2]
    · have ha2 : ¬ (v ≥ a.min_voltage ∧ v < a.max_voltage) := ha
      have hs : get_pressed_button_scan v (a :: rest) = get_pressed_button_scan v rest := by
        simp only [get_pressed_button_scan, if_neg ha2]
      rcases ih with ⟨before, e, after, htab, hbefore, he, hres⟩ | ⟨hnone, hres⟩
      · left
        refine ⟨a :: before, e, after, by simp [htab], ?_, he, by rw [hs, hres]⟩
        intro x hx
        rcases List.mem_cons.1 hx with rfl | hx
        · exact ha
        · exact hbefore x hx
      · right
        refine ⟨?_, by rw [hs, hres]⟩
        intro x hx
        rcases List.mem_cons.1 hx with rfl | hx
        · exact ha
        · exact hnone x hx

/-- The scan of any table agrees with the classification as the specification
words it. -/
theorem get_pressed_button_scan_eq_first_match_id (table : List button_threshold_t) (v : Nat) :
    get_pressed_button_scan v table = first_match_id table v := by
  induction table with
  | nil => rfl
  | cons a rest ih =>
    by_cases ha : in_interval a v
    · have ha2 : v ≥ a.min_voltage ∧ v < a.max_voltage := ha
      simp [get_pressed_button_scan, first_match_id, List.find?, ha, ha2]
    · have ha2 : ¬ (v ≥ a.min_voltage ∧ v < a.max_voltage) := ha
      have hs : get_pressed_button_scan v (a :: rest) = get_pressed_button_scan v rest := by
        simp only [get_pressed_button_scan, if_neg ha2]
      rw [hs, ih]
      simp [first_match_id, List.find?, ha]

/-- C2: for every voltage (every `uint32_t` value among them) the classifier
returns the identity of the first entry of `button_thresholds`, in table
order, whose half-open interval contains the voltage, and `BTN_NONE` when no
entry contains it. -/
theorem get_pressed_button_first_match (v : Nat) :
    get_pressed_button v = first_match_id button_thresholds v ∧
    ((∃ before e after, button_thresholds = before ++ e :: after ∧
        (∀ x ∈ before, ¬ (x.min_voltage ≤ v ∧ v < x.max_voltage)) ∧
        (e.min_voltage ≤ v ∧ v < e.max_voltage) ∧
        get_pressed_button v = e.id) ∨
     ((∀ x ∈ button_thresholds, ¬ (x.min_voltage ≤ v ∧ v < x.max_voltage)) ∧
        get_pressed_button v = BTN_NONE)) :=
  ⟨get_pressed_button_scan_eq_first_match_id button_thresholds v,
   get_pressed_button_scan_first button_thresholds v⟩

/-- C3: every voltage at or above 3300 mV, the highest `max_voltage` of the
table, is classified as `BTN_NONE`. -/
theorem get_pressed_button_above_table (v : Nat) (hv : 3300 ≤ v) :
    get_pressed_button v = BTN_NONE ∧
    (∀ e ∈ button_thresholds, e.max_voltage ≤ 3300) ∧
    (∃ e ∈ button_thresholds, e.max_voltage = 3300) :=
  ⟨get_pressed_button_ge_3300 v hv, by decide, by decide⟩

/-- C3 at the largest `uint32_t` value. -/
theorem get_pressed_button_above_table_witness :
    (3300 ≤ 4294967295) ∧
    (get_pressed_button 4294967295 = BTN_NONE ∧
    (∀ e ∈ button_thresholds, e.max_voltage ≤ 3300) ∧
    (∃ e ∈ button_thresholds, e.max_voltage = 3300)) :=
  ⟨by decide, get_pressed_button_above_table 4294967295 (by decide)⟩

/-- C4: the table partitions `[0, 3300)`: the first entry starts at 0, every
entry has `min_voltage < max_voltage`, each entry ends where the next one
starts, the last entry ends at 3300, the intervals together cover exactly the
voltages below 3300, and the first entry, owner of the lowest range, is
`BTN_NONE` with `led_pin = GPIO_NUM_NC`. -/
theorem button_thresholds_partition :
    button_thresholds.head?.map (fun e => e.min_voltage) = some 0 ∧
    (∀ e ∈ button_thresholds, e.min_voltage < e.max_voltage) ∧
    List.Chain' (fun lo hi => lo.max_voltage = hi.min_voltage) button_thresholds ∧
    button_thresholds.getLast?.map (fun e => e.max_voltage) = some 3300 ∧
    (∀ v, (∃ e ∈ button_thresholds, e.min_voltage ≤ v ∧ v < e.max_voltage) ↔ v < 3300) ∧
    button_thresholds.head?.map (fun e => (e.id, e.led_pin)) = some (BTN_NONE, GPIO_NUM_NC) ∧
    (∀ e ∈ button_thresholds, e.min_voltage = 0 → e.id = BTN_NONE ∧ e.led_pin = GPIO_NUM_NC) := by
  refine ⟨by decide, by decide, ?_, by decide, ?_, by decide, by decide⟩
  · simp only [button_thresholds, List.chain'_cons, List.chain'_singleton]
    decide
  intro v
  simp [button_thresholds]
  omega

/-- C10: at every boundary shared by two adjacent entries of the table, the
boundary voltage is classified as the upper entry and the voltage just below
it as the lower entry; the boundaries are 400, 800, 1200 and 1600, and 800 mV
is DOWN, not UP. -/
theorem get_pressed_button_boundaries :
    List.Chain' (fun lo hi =>
        lo.max_voltage = hi.min_voltage ∧
        get_pressed_button hi.min_voltage = hi.id ∧
        get_pressed_button (lo.max_voltage - 1) = lo.id) button_thresholds ∧
    button_thresholds.tail.map (fun e => e.min_voltage) = [400, 800, 1200, 1600] ∧
    button_thresholds.dropLast.map (fun e => e.max_voltage) = [400, 800, 1200, 1600] ∧
    get_pressed_button 800 = BTN_DOWN ∧ get_pressed_button 800 ≠ BTN_UP ∧
    get_pressed_button 799 = BTN_UP := by
  refine ⟨?_, by decide, by decide, by decide, by decide, by decide⟩
  simp only [button_thresholds, List.chain'_cons, List.chain'_singleton]
  decide

/-! ## Actuator claims -/

/-- The writes `control_leds` issues, identity by identity. -/
theorem control_leds_writes_eq (b : button_id_t) :
    control_leds_writes b =
      control_leds_clear ++
        (match b with
          | BTN_NONE => []
          | BTN_UP => [{ pin := LED1_PIN, level := 1 }]
          | BTN_DOWN => [{ pin := LED2_PIN, level := 1 }]
          | BTN_LEFT => [{ pin := LED3_PIN, level := 1 }]
          | BTN_RIGHT => [{ pin := LED4_PIN, level := 1 }]) := by
  cases b <;> decide

/-- The level of every pin after `control_leds`: each LED pin is active exactly
when it is the one of the identity, and every other pin keeps its level. -/
theorem control_leds_apply (s : gpio_state) (b : button_id_t) (p : gpio_num_t) :
    control_leds s b p =
      if p = LED1_PIN then decide (b = BTN_UP)
      else if p = LED2_PIN then decide (b = BTN_DOWN)
      else if p = LED3_PIN then decide (b = BTN_LEFT)
      else if p = LED4_PIN then decide (b = BTN_RIGHT)
      else s p := by
  rw [control_leds, control_leds_writes_eq]
  cases b <;>
    simp only [control_leds_clear, List.cons_append, List.nil_append, apply_writes,
      gpio_set_level, LED1_PIN, LED2_PIN, LED3_PIN, LED4_PIN, GPIO_NUM_19, GPIO_NUM_21,
      GPIO_NUM_22, GPIO_NUM_23] <;>
    split_ifs <;> simp_all

/-- The LED levels after `control_leds`, LED1 to LED4, whatever they were before. -/
theorem led_levels_control_leds (s : gpio_state) (b : button_id_t) :
    led_levels (control_leds s b) =
      [decide (b = BTN_UP), decide (b = BTN_DOWN), decide (b = BTN_LEFT), decide (b = BTN_RIGHT)] := by
  simp only [led_levels, led_pins, List.map, control_leds_apply]
  simp [LED1_PIN, LED2_PIN, LED3_PIN, LED4_PIN, GPIO_NUM_19, GPIO_NUM_21, GPIO_NUM_22,
    GPIO_NUM_23]

/-- The active LEDs are read off the LED levels. -/
theorem active_leds_eq (s : gpio_state) :
    active_leds s =
      (led_pins.zip (led_levels s)).filterMap (fun q => if q.2 then some q.1 else none) := by
  simp only [active_leds, led_levels, led_pins, List.map, List.zip_cons_cons, List.zip_nil_right,
    List.filterMap_cons, List.filterMap_nil, List.filter_cons, List.filter_nil]
  cases s LED1_PIN <;> cases s LED2_PIN <;> cases s LED3_PIN <;> cases s LED4_PIN <;> rfl

/-- A later `control_leds` call overwrites an earlier one. -/
theorem control_leds_overwrite (s : gpio_state) (b c : button_id_t) :
    control_leds (control_leds s b) c = control_leds s c := by
  funext p
  rw [control_leds_apply (control_leds s b) c p, control_leds_apply s c p,
    control_leds_apply s b p]
  split_ifs <;> rfl

/-- C5: from every prior state of the outputs, `control_leds(BTN_NONE)` leaves
all four LEDs inactive, and `control_leds(X)` for X one of UP, DOWN, LEFT,
RIGHT leaves exactly one LED active, the `led_pin` bound to X in
`button_thresholds`: LED1 for UP, LED2 for DOWN, LED3 for LEFT, LED4 for RIGHT. -/
theorem control_leds_single_active (s : gpio_state) :
    (active_leds (control_leds s BTN_NONE) = [] ∧
      led_levels (control_leds s BTN_NONE) = [false, false, false, false]) ∧
    (bound_led BTN_UP = some LED1_PIN ∧
      active_leds (control_leds s BTN_UP) = [LED1_PIN] ∧
      led_levels (control_leds s BTN_UP) = [true, false, false, false]) ∧
    (bound_led BTN_DOWN = some LED2_PIN ∧
      active_leds (control_leds s BTN_DOWN) = [LED2_PIN] ∧
      led_levels (control_leds s BTN_DOWN) = [false, true, false, false]) ∧
    (bound_led BTN_LEFT = some LED3_PIN ∧
      active_leds (control_leds s BTN_LEFT) = [LED3_PIN] ∧
      led_levels (control_leds s BTN_LEFT) = [false, false, true, false]) ∧
    (bound_led BTN_RIGHT = some LED4_PIN ∧
      active_leds (control_leds s BTN_RIGHT) = [LED4_PIN] ∧
      led_levels (control_leds s BTN_RIGHT) = [false, false, false, true]) := by
  simp only [active_leds_eq, led_levels_control_leds]
  decide

/-- C6: `control_leds` is idempotent: from every prior state of the outputs and
for every identity, calling it twice in a row leaves the outputs as a single
call does. -/
theorem control_leds_idempotent (s : gpio_state) (b : button_id_t) :
    control_leds (control_leds s b) b = control_leds s b ∧
    led_levels (control_leds (control_leds s b) b) = led_levels (control_leds s b) := by
  have h := control_leds_overwrite s b b
  exact ⟨h, by rw [h]⟩

/-! ## Monitor loop claims -/

/-- After an iteration `last_button` is the classification of its voltage,
whether or not the iteration took the branch. -/
theorem monitor_iteration_last_button (st : monitor_state) (v : Nat) :
    (monitor_iteration st v).1.last_button = get_pressed_button v := by
  unfold monitor_iteration
  by_cases h : get_pressed_button v = st.last_button
  · simp [h]
  · simp [h]

/-- An iteration invokes `control_leds` exactly when the classification differs
from `last_button`, and then on the classification. -/
theorem monitor_iteration_call (st : monitor_state) (v : Nat) :
    control_leds_call_of (monitor_iteration st v).2 =
      if get_pressed_button v ≠ st.last_button then some (get_pressed_button v) else none := by
  unfold monitor_iteration
  by_cases h : get_pressed_button v = st.last_button
  · simp [h, control_leds_call_of]
  · simp [h, control_leds_call_of]

/-- Running over a concatenation is running over the parts in turn. -/
theorem button_monitor_task_run_append (st : monitor_state) (xs ys : List Nat) :
    button_monitor_task_run st (xs ++ ys) =
      ((button_monitor_task_run (button_monitor_task_run st xs).1 ys).1,
       (button_monitor_task_run st xs).2 ++
         (button_monitor_task_run (button_monitor_task_run st xs).1 ys).2) := by
  induction xs generalizing st with
  | nil => simp [button_monitor_task_run]
  | cons x xs ih => simp [button_monitor_task_run, ih]

/-- A run records one list of events per sampled voltage. -/
theorem button_monitor_task_run_length (st : monitor_state) (vs : List Nat) :
    (button_monitor_task_run st vs).2.length = vs.length := by
  induction vs generalizing st with
  | nil => simp [button_monitor_task_run]
  | cons x xs ih => simp [button_monitor_task_run, ih]

/-- After a run `last_button` is the classification of the last voltage, or
unchanged when there was none. -/
theorem button_monitor_task_run_last_button (st : monitor_state) (vs : List Nat) :
    (button_monitor_task_run st vs).1.last_button =
      (match vs.getLast? with
        | none => st.last_button
        | some u => get_pressed_button u) := by
  induction vs generalizing st with
  | nil => simp [button_monitor_task_run]
  | cons x xs ih =>
    simp only [button_monitor_task_run]
    rw [ih]
    cases xs with
    | nil => simp [monitor_iteration_last_button]
    | cons y ys =>
      rw [List.getLast?_cons_cons, List.getLast?_eq_getLast (y :: ys) (by simp)]

/-- The calls of a run over a concatenation. -/
theorem monitor_calls_append (st : monitor_state) (xs ys : List Nat) :
    monitor_calls st (xs ++ ys) =
      monitor_calls st xs ++ monitor_calls (button_monitor_task_run st xs).1 ys := by
  simp [monitor_calls, button_monitor_task_run_append]

/-- A run records one call slot per sampled voltage. -/
theorem monitor_calls_length (st : monitor_state) (vs : List Nat) :
    (monitor_calls st vs).length = vs.length := by
  simp [monitor_calls, button_monitor_task_run_length]

/-- A run over no voltage makes no call. -/
theorem monitor_calls_nil (st : monitor_state) : monitor_calls st [] = [] := rfl

/-- The first call slot of a run. -/
theorem monitor_calls_cons (st : monitor_state) (v : Nat) (vs : List Nat) :
    monitor_calls st (v :: vs) =
      (if get_pressed_button v ≠ st.last_button then some (get_pressed_button v) else none) ::
        monitor_calls (monitor_iteration st v).1 vs := by
  simp only [monitor_calls, button_monitor_task_run, List.map_cons, monitor_iteration_call]

/-- C8: edge-triggered actuation. In every run of the loop from its initial
state, at every iteration (the one on `v`, after the voltages `before`),
`control_leds` is invoked exactly when the classification of `v` differs from
the `last_button` held before the iteration, its argument then being that
classification; that `last_button` is `BTN_NONE` at the first iteration and the
classification of the previous voltage afterwards. On `[500, 500, 500, 900]`
the invocations are at iteration 1, with `BTN_UP`, and at iteration 4, with
`BTN_DOWN`. -/
theorem monitor_edge_triggered :
    (∀ (g : gpio_state) (before : List Nat) (v : Nat) (after : List Nat),
      (monitor_calls (button_monitor_task_start g) (before ++ v :: after))[before.length]? =
        some (if get_pressed_button v ≠
                (button_monitor_task_run (button_monitor_task_start g) before).1.last_button
              then some (get_pressed_button v) else none) ∧
      (button_monitor_task_run (button_monitor_task_start g) before).1.last_button =
        (match before.getLast? with
          | none => BTN_NONE
          | some u => get_pressed_button u)) ∧
    (∀ g : gpio_state,
      monitor_calls (button_monitor_task_start g) [500, 500, 500, 900] =
        [some BTN_UP, none, none, some BTN_DOWN]) := by
  refine ⟨?_, ?_⟩
  · intro g before v after
    refine ⟨?_, ?_⟩
    · rw [monitor_calls_append, monitor_calls_cons]
      rw [List.getElem?_append_right (by rw [monitor_calls_length])]
      simp [monitor_calls_length]
    · rw [button_monitor_task_run_last_button]
      rfl
  · intro g
    simp only [monitor_calls_cons, monitor_calls_nil, monitor_iteration_last_button,
      button_monitor_task_start]
    rfl

/-- An iteration whose classification equals `last_button` changes nothing and
does nothing. -/
theorem monitor_iteration_same (st : monitor_state) (v : Nat)
    (h : get_pressed_button v = st.last_button) :
    monitor_iteration st v = (st, []) := by
  simp [monitor_iteration, h]

/-- While the voltages stay below 400 mV the loop stays in its initial state,
iteration after iteration, with no event. -/
theorem button_monitor_task_run_none_range (g : gpio_state) (vs : List Nat)
    (h : ∀ v ∈ vs, v < 400) :
    button_monitor_task_run (button_monitor_task_start g) vs =
      (button_monitor_task_start g, List.replicate vs.length []) := by
  induction vs with
  | nil => rfl
  | cons x xs ih =>
    have hx : get_pressed_button x = (button_monitor_task_start g).last_button :=
      get_pressed_button_lt_400 x (h x (List.mem_cons_self x xs))
    have hxs : ∀ v ∈ xs, v < 400 := fun v hv => h v (List.mem_cons_of_mem x hv)
    simp only [button_monitor_task_run, monitor_iteration_same _ x hx, ih hxs,
      List.length_cons, List.replicate_succ]

/-- C7, as stated, fails on `[0, 0, 200]`: the loop starts with
`last_button = BTN_NONE`, so the first iteration sees no change and
`control_leds` is invoked on no iteration, not once. -/
theorem monitor_none_range_counterexample :
    monitor_calls (button_monitor_task_start (fun _ => false)) [0, 0, 200] =
      [none, none, none] ∧
    ¬ ((monitor_calls (button_monitor_task_start (fun _ => false)) [0, 0, 200]).head? =
        some (some BTN_NONE)) ∧
    ¬ (((monitor_calls (button_monitor_task_start (fun _ => false)) [0, 0, 200]).filter
        (fun c => c.isSome)).length = 1) := by
  decide

/-- C7, amended: for every sequence of sampled voltages that all lie in
`[0, 400)`, running the iterations of `button_monitor_task` from its initial
state, where `last_button = BTN_NONE`, invokes `control_leds` on no iteration,
the first included, and leaves `last_button` and every output as they were. -/
theorem monitor_none_range_no_call (g : gpio_state) (vs : List Nat)
    (h : ∀ v ∈ vs, v < 400) :
    monitor_calls (button_monitor_task_start g) vs = List.replicate vs.length none ∧
    ((monitor_calls (button_monitor_task_start g) vs).filter (fun c => c.isSome)).length = 0 ∧
    (button_monitor_task_run (button_monitor_task_start g) vs).1.last_button = BTN_NONE ∧
    (button_monitor_task_run (button_monitor_task_start g) vs).1.gpio = g := by
  have hc : monitor_calls (button_monitor_task_start g) vs = List.replicate vs.length none := by
    simp [monitor_calls, button_monitor_task_run_none_range g vs h, control_leds_call_of]
  refine ⟨hc, ?_, ?_, ?_⟩
  · rw [hc]
    simp
  · rw [button_monitor_task_run_none_range g vs h]
    rfl
  · rw [button_monitor_task_run_none_range g vs h]
    rfl

/-- C7, amended, on `[0, 0, 200]` from all outputs low. -/
theorem monitor_none_range_no_call_witness :
    (∀ v ∈ [0, 0, 200], v < 400) ∧
    (monitor_calls (button_monitor_task_start (fun _ => false)) [0, 0, 200] =
        List.replicate [0, 0, 200].length none ∧
    ((monitor_calls (button_monitor_task_start (fun _ => false)) [0, 0, 200]).filter
        (fun c => c.isSome)).length = 0 ∧
    (button_monitor_task_run (button_monitor_task_start (fun _ => false))
        [0, 0, 200]).1.last_button = BTN_NONE ∧
    (button_monitor_task_run (button_monitor_task_start (fun _ => false))
        [0, 0, 200]).1.gpio = fun _ => false) :=
  ⟨by decide, monitor_none_range_no_call (fun _ => false) [0, 0, 200] (by decide)⟩

/-- An iteration keeps the outputs equal to what `control_leds` makes of the
power-up levels for the current `last_button`. -/
theorem monitor_iteration_consistent (s0 : gpio_state) (st : monitor_state) (v : Nat)
    (h : st.gpio = control_leds s0 st.last_button) :
    (monitor_iteration st v).1.gpio = control_leds s0 (monitor_iteration st v).1.last_button := by
  unfold monitor_iteration
  by_cases hc : get_pressed_button v = st.last_button
  · simp [hc, h]
  · simp [hc, h, control_leds_overwrite]

/-- A run keeps the outputs equal to what `control_leds` makes of the power-up
levels for the current `last_button`. -/
theorem button_monitor_task_run_consistent (s0 : gpio_state) (st : monitor_state)
    (vs : List Nat) (h : st.gpio = control_leds s0 st.last_button) :
    (button_monitor_task_run st vs).1.gpio =
      control_leds s0 (button_monitor_task_run st vs).1.last_button := by
  induction vs generalizing st with
  | nil => exact h
  | cons x xs ih =>
    simp only [button_monitor_task_run]
    exact ih _ (monitor_iteration_consistent s0 st x h)

/-- C9: loop consistency. From the state `app_main` establishes and the
initial `last_button`, after every iteration (the one on `v`, after any earlier
voltages `vs`) `last_button` is the classification of `v` and the outputs are
those `control_leds` produces for it: the LED levels are the ones
`control_leds` gives from any prior state, the single LED bound to the identity
being active and none for `BTN_NONE`. After one iteration on 1700 mV only LED4
is active. -/
theorem monitor_loop_consistent :
    (∀ (s0 : gpio_state) (vs : List Nat) (v : Nat),
      (system_run s0 (vs ++ [v])).1.last_button = get_pressed_button v ∧
      (system_run s0 (vs ++ [v])).1.gpio = control_leds s0 (get_pressed_button v) ∧
      (∀ s : gpio_state,
        led_levels (system_run s0 (vs ++ [v])).1.gpio =
          led_levels (control_leds s (get_pressed_button v))) ∧
      active_leds (system_run s0 (vs ++ [v])).1.gpio =
        (if get_pressed_button v = BTN_NONE then []
         else (bound_led (get_pressed_button v)).toList)) ∧
    (∀ s0 : gpio_state,
      active_leds (system_run s0 [1700]).1.gpio = [LED4_PIN] ∧
      led_levels (system_run s0 [1700]).1.gpio = [false, false, false, true]) := by
  have main : ∀ (s0 : gpio_state) (vs : List Nat) (v : Nat),
      (system_run s0 (vs ++ [v])).1.last_button = get_pressed_button v ∧
      (system_run s0 (vs ++ [v])).1.gpio = control_leds s0 (get_pressed_button v) := by
    intro s0 vs v
    have hl : (system_run s0 (vs ++ [v])).1.last_button = get_pressed_button v := by
      rw [system_run, button_monitor_task_run_last_button]
      simp
    refine ⟨hl, ?_⟩
    have hg := button_monitor_task_run_consistent s0
      (button_monitor_task_start (app_main_gpio s0)) (vs ++ [v]) rfl
    rw [system_run, hg]
    rw [system_run] at hl
    rw [hl]
  refine ⟨?_, ?_⟩
  · intro s0 vs v
    obtain ⟨hl, hg⟩ := main s0 vs v
    refine ⟨hl, hg, ?_, ?_⟩
    · intro s
      rw [hg, led_levels_control_leds, led_levels_control_leds]
    · rw [hg, active_leds_eq, led_levels_control_leds]
      cases get_pressed_button v <;> decide
  · intro s0
    obtain ⟨-, hg⟩ := main s0 [] 1700
    rw [List.nil_append] at hg
    rw [hg, active_leds_eq, led_levels_control_leds]
    decide

/-! ## Table well-formedness and the name lookup -/

/-- C15: the identity-to-entry mapping of `button_thresholds` is well formed:
the five entries carry pairwise distinct identities, which are exactly
`BTN_NONE`, `BTN_UP`, `BTN_DOWN`, `BTN_LEFT` and `BTN_RIGHT`; the `led_pin`
values of the four entries other than NONE are pairwise distinct and none is
`GPIO_NUM_NC`, so each identity other than NONE is bound to its own LED. -/
theorem button_thresholds_well_formed :
    NUM_BUTTONS = 5 ∧
    (button_thresholds.map (fun e => e.id)).Nodup ∧
    (∀ b : button_id_t, b ∈ button_thresholds.map (fun e => e.id)) ∧
    button_thresholds.map (fun e => e.id) = [BTN_NONE, BTN_UP, BTN_DOWN, BTN_LEFT, BTN_RIGHT] ∧
    ((button_thresholds.filter (fun e => decide (e.id ≠ BTN_NONE))).map
        (fun e => e.led_pin)).Nodup ∧
    (button_thresholds.filter (fun e => decide (e.id ≠ BTN_NONE))).map (fun e => e.led_pin) =
      [LED1_PIN, LED2_PIN, LED3_PIN, LED4_PIN] ∧
    (∀ e ∈ button_thresholds, e.id ≠ BTN_NONE → e.led_pin ≠ GPIO_NUM_NC) ∧
    [bound_led BTN_UP, bound_led BTN_DOWN, bound_led BTN_LEFT, bound_led BTN_RIGHT] =
      [some 19, some 21, some 22, some 23] := by
  refine ⟨by decide, by decide, ?_, by decide, by decide, by decide, by decide, by decide⟩
  intro b
  cases b <;> decide

/-- The name the lookup of the monitor loop finds, identity by identity. -/
theorem button_name_scan_eq (b : button_id_t) :
    button_name_scan b button_thresholds =
      (match b with
        | BTN_NONE => "NONE"
        | BTN_UP => "UP"
        | BTN_DOWN => "DOWN"
        | BTN_LEFT => "LEFT"
        | BTN_RIGHT => "RIGHT") := by
  cases b <;> decide

/-- C16: the transition notice never reports "UNKNOWN". For every voltage
(every `uint32_t` value among them) the name lookup of `button_monitor_task`
for the classification of the voltage finds a table entry; the name logged is
the `name` of the entry carrying that identity, and for a voltage inside the
table, the `name` of the entry whose interval contains it. -/
theorem button_name_never_unknown (v : Nat) :
    button_name_scan (get_pressed_button v) button_thresholds ≠ "UNKNOWN" ∧
    (∃ e ∈ button_thresholds, e.id = get_pressed_button v ∧
        button_name_scan (get_pressed_button v) button_thresholds = e.name) ∧
    (∀ e ∈ button_thresholds, e.id = get_pressed_button v →
        button_name_scan (get_pressed_button v) button_thresholds = e.name) ∧
    (∀ e ∈ button_thresholds, e.min_voltage ≤ v ∧ v < e.max_voltage →
        button_name_scan (get_pressed_button v) button_thresholds = e.name) ∧
    (∀ st : monitor_state, get_pressed_button v ≠ st.last_button →
        (monitor_iteration st v).2 =
          [ monitor_event.log_voltage v,
            monitor_event.log_button (button_name_scan (get_pressed_button v) button_thresholds),
            monitor_event.control_leds_call (get_pressed_button v) ]) := by
  refine ⟨?_, ?_, ?_, ?_, ?_⟩
  · rw [button_name_scan_eq]
    cases get_pressed_button v <;> decide
  · rw [button_name_scan_eq]
    cases get_pressed_button v <;> decide
  · rw [button_name_scan_eq]
    cases get_pressed_button v <;> decide
  · intro e he hv
    rw [button_name_scan_eq]
    rcases get_pressed_button_ranges v with h | h | h | h | h | h
    all_goals
      simp only [button_thresholds, List.mem_cons, List.mem_singleton, List.not_mem_nil,
        or_false] at he
      rcases he with rfl | rfl | rfl | rfl | rfl <;> simp_all <;> omega
  · intro st hne
    simp [monitor_iteration, hne]

/-! ## Frame of the actuator -/

/-- A write leaves every pin other than the one written as it was. -/
theorem gpio_set_level_other (s : gpio_state) (q p : gpio_num_t) (level : Nat) (h : p ≠ q) :
    gpio_set_level s q level p = s p := by
  simp [gpio_set_level, h]

/-- Every write of `control_leds` goes to one of the four LED pins. -/
theorem control_leds_writes_pins (b : button_id_t) :
    ∀ w ∈ control_leds_writes b, w.pin ∈ led_pins ∧ w.pin ≠ GPIO_NUM_NC := by
  cases b <;> decide

/-- A sequence of writes to pins other than `p` leaves `p` as it was, after
every write of the sequence. -/
theorem write_states_other (p : gpio_num_t) (ws : List gpio_write) (s : gpio_state)
    (h : ∀ w ∈ ws, w.pin ≠ p) :
    (∀ t ∈ write_states s ws, t p = s p) ∧ apply_writes s ws p = s p := by
  induction ws generalizing s with
  | nil => simp [write_states, apply_writes]
  | cons w ws ih =>
    have hw : p ≠ w.pin := fun e => h w (List.mem_cons_self w ws) e.symm
    have hs := gpio_set_level_other s w.pin p w.level hw
    obtain ⟨h1, h2⟩ := ih (gpio_set_level s w.pin w.level)
      (fun x hx => h x (List.mem_cons_of_mem w hx))
    refine ⟨?_, ?_⟩
    · intro t ht
      rcases List.mem_cons.1 ht with rfl | ht
      · exact hs
      · rw [h1 t ht, hs]
    · simp only [apply_writes]
      rw [h2, hs]

/-- C14: `control_leds` writes only the four LED pins. For every identity,
`BTN_NONE` included, and every state of the GPIO outputs, a pin other than
LED1 (19), LED2 (21), LED3 (22) and LED4 (23) has the same level after
`control_leds`, and after each of its writes, as before; every write goes to
an LED pin and none to `GPIO_NUM_NC`. -/
theorem control_leds_frame (s : gpio_state) (b : button_id_t) (p : gpio_num_t)
    (hp : p ∉ led_pins) :
    control_leds s b p = s p ∧
    (∀ t ∈ write_states s (control_leds_writes b), t p = s p) ∧
    (∀ w ∈ control_leds_writes b, w.pin ∈ led_pins ∧ w.pin ≠ GPIO_NUM_NC) ∧
    led_pins = [19, 21, 22, 23] := by
  have hw : ∀ w ∈ control_leds_writes b, w.pin ≠ p := by
    intro w hmem e
    exact hp (e ▸ (control_leds_writes_pins b w hmem).1)
  obtain ⟨h1, h2⟩ := write_states_other p (control_leds_writes b) s hw
  exact ⟨h2, h1, control_leds_writes_pins b, by decide⟩

/-- C14 on the pin `GPIO_NUM_NC` itself, for `BTN_NONE`, from all outputs high. -/
theorem control_leds_frame_witness :
    (GPIO_NUM_NC ∉ led_pins) ∧
    (control_leds (fun _ => true) BTN_NONE GPIO_NUM_NC = (fun _ => true) GPIO_NUM_NC ∧
    (∀ t ∈ write_states (fun _ => true) (control_leds_writes BTN_NONE),
        t GPIO_NUM_NC = (fun _ => true) GPIO_NUM_NC) ∧
    (∀ w ∈ control_leds_writes BTN_NONE, w.pin ∈ led_pins ∧ w.pin ≠ GPIO_NUM_NC) ∧
    led_pins = [19, 21, 22, 23]) :=
  ⟨by decide, control_leds_frame (fun _ => true) BTN_NONE GPIO_NUM_NC (by decide)⟩

/-! ## At most one LED active -/

/-- The number of active LEDs, from the four LED levels. -/
theorem active_leds_length (s : gpio_state) :
    (active_leds s).length =
      (if s LED1_PIN then 1 else 0) + (if s LED2_PIN then 1 else 0) +
        (if s LED3_PIN then 1 else 0) + (if s LED4_PIN then 1 else 0) := by
  simp only [active_leds, led_pins, List.filter_cons, List.filter_nil]
  cases s LED1_PIN <;> cases s LED2_PIN <;> cases s LED3_PIN <;> cases s LED4_PIN <;> rfl

/-- From a state with at most one LED active, every state `control_leds`
passes through, write by write, has at most one LED active. -/
theorem write_states_control_leds_le_one (s : gpio_state) (b : button_id_t)
    (h : (active_leds s).length ≤ 1) :
    ∀ t ∈ write_states s (control_leds_writes b), (active_leds t).length ≤ 1 := by
  intro t ht
  rw [control_leds_writes_eq] at ht
  rw [active_leds_length] at h ⊢
  cases b <;>
    simp only [control_leds_clear, List.cons_append, List.nil_append, write_states,
      List.mem_cons, List.mem_singleton, List.not_mem_nil, or_false] at ht <;>
    rcases ht with rfl | rfl | rfl | rfl | rfl <;>
    simp only [gpio_set_level, LED1_PIN, LED2_PIN, LED3_PIN, LED4_PIN, GPIO_NUM_19,
      GPIO_NUM_21, GPIO_NUM_22, GPIO_NUM_23] at h ⊢ <;>
    norm_num at h ⊢ <;>
    split_ifs at h ⊢ <;> omega

/-- After `control_leds` at most one LED is active, whatever the state before. -/
theorem control_leds_le_one (s : gpio_state) (b : button_id_t) :
    (active_leds (control_leds s b)).length ≤ 1 := by
  rw [active_leds_eq, led_levels_control_leds]
  cases b <;> decide

/-- From a state with at most one LED active, every state passed through by a
sequence of `control_leds` calls, write by write, has at most one LED active. -/
theorem control_leds_seq_states_le_one (bs : List button_id_t) (s : gpio_state)
    (h : (active_leds s).length ≤ 1) :
    ∀ t ∈ control_leds_seq_states s bs, (active_leds t).length ≤ 1 := by
  induction bs generalizing s with
  | nil => simp [control_leds_seq_states]
  | cons b bs ih =>
    intro t ht
    simp only [control_leds_seq_states, List.mem_append] at ht
    rcases ht with ht | ht
    · exact write_states_control_leds_le_one s b h t ht
    · exact ih (control_leds s b) (control_leds_le_one s b) t ht

/-- After a sequence of `control_leds` calls from a state with at most one LED
active, at most one LED is active. -/
theorem control_leds_seq_le_one (bs : List button_id_t) (s : gpio_state)
    (h : (active_leds s).length ≤ 1) :
    (active_leds (control_leds_seq s bs)).length ≤ 1 := by
  induction bs generalizing s with
  | nil => exact h
  | cons b bs ih => exact ih (control_leds s b) (control_leds_le_one s b)

/-- C11: at most one LED is active at any instant. With `control_leds` taken
write by write, from every prior state in which at most one LED is active (the
all-inactive state among them) and for every identity, the state after each
write and the final state have at most one of LED1 to LED4 active; and so has
every state passed through, and the state reached, by any sequence of
`control_leds` calls. -/
theorem at_most_one_led_active (s : gpio_state) (h : (active_leds s).length ≤ 1) :
    (∀ b : button_id_t,
      (∀ t ∈ write_states s (control_leds_writes b), (active_leds t).length ≤ 1) ∧
      (active_leds (control_leds s b)).length ≤ 1) ∧
    (∀ bs : List button_id_t,
      (∀ t ∈ control_leds_seq_states s bs, (active_leds t).length ≤ 1) ∧
      (active_leds (control_leds_seq s bs)).length ≤ 1) :=
  ⟨fun b => ⟨write_states_control_leds_le_one s b h, control_leds_le_one s b⟩,
   fun bs => ⟨control_leds_seq_states_le_one bs s h, control_leds_seq_le_one bs s h⟩⟩

/-- C11 from the state in which every output is inactive. -/
theorem at_most_one_led_active_witness :
    ((active_leds (fun _ => false)).length ≤ 1) ∧
    ((∀ b : button_id_t,
      (∀ t ∈ write_states (fun _ => false) (control_leds_writes b),
        (active_leds t).length ≤ 1) ∧
      (active_leds (control_leds (fun _ => false) b)).length ≤ 1) ∧
    (∀ bs : List button_id_t,
      (∀ t ∈ control_leds_seq_states (fun _ => false) bs, (active_leds t).length ≤ 1) ∧
      (active_leds (control_leds_seq (fun _ => false) bs)).length ≤ 1)) :=
  ⟨by decide, at_most_one_led_active (fun _ => false) (by decide)⟩

/-! ## Sampler claims -/

/-- While the 12-bit samples are summed the accumulator is their exact sum:
after `i` passes, for `i` up to `ADC_SAMPLES`, it equals the sum of the first
`i` samples, which is at most `4095 * i`. -/
theorem read_voltage_mv_acc_exact (raw : Nat → Int)
    (h : ∀ i, i < ADC_SAMPLES → 0 ≤ raw i ∧ raw i ≤ 4095) (i : Nat) (hi : i ≤ ADC_SAMPLES) :
    ((read_voltage_mv_acc raw i : Nat) : Int) = Finset.sum (Finset.range i) raw ∧
    0 ≤ Finset.sum (Finset.range i) raw ∧
    Finset.sum (Finset.range i) raw ≤ 4095 * (i : Int) := by
  induction i with
  | zero => simp [read_voltage_mv_acc]
  | succ k ih =>
    have hk : k < ADC_SAMPLES := hi
    obtain ⟨h1, h2, h3⟩ := ih (Nat.le_of_lt hk)
    obtain ⟨r1, r2⟩ := h k hk
    have hk32 : (k : Int) < 32 := by
      have : k < 32 := hk
      omega
    have hs : Finset.sum (Finset.range (k + 1)) raw = Finset.sum (Finset.range k) raw + raw k :=
      Finset.sum_range_succ raw k
    rw [hs]
    simp only [read_voltage_mv_acc]
    rw [h1]
    generalize Finset.sum (Finset.range k) raw = S at h2 h3 ⊢
    push_cast
    refine ⟨?_, by omega, by omega⟩
    omega

/-- A sum of `n` samples that all lie between `lo` and `hi` lies between
`n * lo` and `n * hi`. -/
theorem sum_samples_bounds (raw : Nat → Int) (lo hi : Int) (n : Nat)
    (h : ∀ i, i < n → lo ≤ raw i ∧ raw i ≤ hi) :
    (n : Int) * lo ≤ Finset.sum (Finset.range n) raw ∧
    Finset.sum (Finset.range n) raw ≤ (n : Int) * hi := by
  induction n with
  | zero => simp
  | succ k ih =>
    obtain ⟨h1, h2⟩ := ih (fun i hi => h i (Nat.lt_succ_of_lt hi))
    obtain ⟨r1, r2⟩ := h k (Nat.lt_succ_self k)
    have hs : Finset.sum (Finset.range (k + 1)) raw = Finset.sum (Finset.range k) raw + raw k :=
      Finset.sum_range_succ raw k
    rw [hs]
    generalize Finset.sum (Finset.range k) raw = S at h1 h2 ⊢
    push_cast
    have e1 : ((k : Int) + 1) * lo = (k : Int) * lo + lo := by ring
    have e2 : ((k : Int) + 1) * hi = (k : Int) * hi + hi := by ring
    rw [e1, e2]
    exact ⟨by linarith, by linarith⟩

/-- C12: `read_voltage_mv` hands the conversion the arithmetic mean of the
`ADC_SAMPLES = 32` raw codes it read. For every 32 samples each in
`[0, 4095]`, no addition to the `uint32_t` accumulator wraps modulo `2^32`
(after each pass the accumulator is the exact sum so far); the code converted
is the sum of the 32 samples divided by 32, by integer division; and that code
lies between the minimum and the maximum of the samples, so within
`[0, 4095]`. -/
theorem read_voltage_mv_mean {P : Type} (esp_adc_cal_raw_to_voltage : Nat → Option P → Nat)
    (adc_chars : Option P) (raw : Nat → Int)
    (h : ∀ i, i < ADC_SAMPLES → 0 ≤ raw i ∧ raw i ≤ 4095) :
    ADC_SAMPLES = 32 ∧
    (∀ i, i < ADC_SAMPLES →
      0 ≤ ((read_voltage_mv_acc raw i : Nat) : Int) + raw i ∧
      ((read_voltage_mv_acc raw i : Nat) : Int) + raw i < 2 ^ 32 ∧
      ((read_voltage_mv_acc raw (i + 1) : Nat) : Int) =
        ((read_voltage_mv_acc raw i : Nat) : Int) + raw i) ∧
    ((read_voltage_mv_acc raw ADC_SAMPLES : Nat) : Int) = Finset.sum (Finset.range 32) raw ∧
    ((read_voltage_mv_code raw : Nat) : Int) = Finset.sum (Finset.range 32) raw / 32 ∧
    read_voltage_mv esp_adc_cal_raw_to_voltage adc_chars raw =
      esp_adc_cal_raw_to_voltage (Finset.sum (Finset.range 32) raw / 32).toNat adc_chars ∧
    (∀ lo hi : Int, (∀ i, i < 32 → lo ≤ raw i ∧ raw i ≤ hi) →
      lo ≤ ((read_voltage_mv_code raw : Nat) : Int) ∧
      ((read_voltage_mv_code raw : Nat) : Int) ≤ hi) ∧
    (∃ i, i < 32 ∧ raw i ≤ ((read_voltage_mv_code raw : Nat) : Int)) ∧
    (∃ j, j < 32 ∧ ((read_voltage_mv_code raw : Nat) : Int) ≤ raw j) ∧
    read_voltage_mv_code raw ≤ 4095 := by
  have hacc := read_voltage_mv_acc_exact raw h
  have htot : ((read_voltage_mv_acc raw ADC_SAMPLES : Nat) : Int) =
      Finset.sum (Finset.range 32) raw := (hacc ADC_SAMPLES (Nat.le_refl _)).1
  have hcode : ((read_voltage_mv_code raw : Nat) : Int) =
      Finset.sum (Finset.range 32) raw / 32 := by
    rw [← htot]
    simp [read_voltage_mv_code, ADC_SAMPLES]
  have hbetween : ∀ lo hi : Int, (∀ i, i < 32 → lo ≤ raw i ∧ raw i ≤ hi) →
      lo ≤ ((read_voltage_mv_code raw : Nat) : Int) ∧
      ((read_voltage_mv_code raw : Nat) : Int) ≤ hi := by
    intro lo hi hb
    obtain ⟨b1, b2⟩ := sum_samples_bounds raw lo hi 32 hb
    rw [hcode]
    generalize Finset.sum (Finset.range 32) raw = S at b1 b2 ⊢
    push_cast at b1 b2
    omega
  refine ⟨rfl, ?_, htot, hcode, ?_, hbetween, ?_, ?_, ?_⟩
  · intro i hi
    obtain ⟨a1, a2, a3⟩ := hacc i (Nat.le_of_lt hi)
    obtain ⟨c1, -, -⟩ := hacc (i + 1) hi
    obtain ⟨r1, r2⟩ := h i hi
    have hs : Finset.sum (Finset.range (i + 1)) raw = Finset.sum (Finset.range i) raw + raw i :=
      Finset.sum_range_succ raw i
    have hi32 : (i : Int) < 32 := by
      have : i < 32 := hi
      omega
    rw [c1, hs, a1]
    generalize Finset.sum (Finset.range i) raw = S at a2 a3 ⊢
    refine ⟨by omega, ?_, rfl⟩
    norm_num
    omega
  · have e : read_voltage_mv_code raw = (Finset.sum (Finset.range 32) raw / 32).toNat := by
      rw [← hcode]
      simp
    rw [read_voltage_mv, e]
  · by_contra hne
    push_neg at hne
    have hb : ∀ i, i < 32 → ((read_voltage_mv_code raw : Nat) : Int) + 1 ≤ raw i ∧ raw i ≤ 4095 :=
      fun i hi => ⟨by have := hne i hi; omega, (h i hi).2⟩
    have := (hbetween _ _ hb).1
    omega
  · by_contra hne
    push_neg at hne
    have hb : ∀ i, i < 32 → 0 ≤ raw i ∧ raw i ≤ ((read_voltage_mv_code raw : Nat) : Int) - 1 :=
      fun i hi => ⟨(h i hi).1, by have := hne i hi; omega⟩
    have := (hbetween _ _ hb).2
    omega
  · have := (hbetween 0 4095 h).2
    omega

/-- C12 on 32 samples that are all the largest 12-bit code, the case in which
the accumulator grows most. -/
theorem read_voltage_mv_mean_witness :
    (∀ i, i < ADC_SAMPLES → (0 : Int) ≤ (fun _ => 4095) i ∧ (fun _ => (4095 : Int)) i ≤ 4095) ∧
    ((read_voltage_mv_code (fun _ => 4095) : Nat) : Int) =
      Finset.sum (Finset.range 32) (fun _ => (4095 : Int)) / 32 ∧
    read_voltage_mv (fun code (_ : Option Unit) => code) none (fun _ => 4095) = 4095 :=
  ⟨fun _ _ => ⟨by norm_num, by norm_num⟩,
   (read_voltage_mv_mean (fun code (_ : Option Unit) => code) none (fun _ => 4095)
      (fun _ _ => ⟨by norm_num, by norm_num⟩)).2.2.2.1,
   ((read_voltage_mv_mean (fun code (_ : Option Unit) => code) none (fun _ => 4095)
      (fun _ _ => ⟨by norm_num, by norm_num⟩)).2.2.2.2.1).trans (by simp)⟩

/-! ## Startup -/

/-- The startup path tests neither the allocation nor any return value:
`adc_chars` is left as the allocation yielded it, that same pointer is handed
to `esp_adc_cal_characterize`, and `app_main` reaches the creation of
`button_monitor_task` exactly when `esp_adc_cal_characterize` returns. What
that callee does when handed a null pointer is not part of the program, so
the program alone settles neither that startup stops on a failed allocation
nor that it goes on. -/
theorem app_main_task_started {P : Type} [DecidableEq P] (calloc_result : Option P)
    (characterize_returns : Option P → Bool) :
    task_started (app_main calloc_result characterize_returns) =
      characterize_returns calloc_result ∧
    (app_main calloc_result characterize_returns).completed =
      characterize_returns calloc_result ∧
    (app_main calloc_result characterize_returns).adc_chars = calloc_result ∧
    startup_call.esp_adc_cal_characterize calloc_result ∈
      (app_main calloc_result characterize_returns).calls := by
  cases hc : characterize_returns calloc_result <;>
    simp [app_main, init_adc, task_started, hc]

end SwitchLED
